import Mathlib

/-!
Shallow embedding of the visitor-log application (`src/App.tsx`,
`src/components/Visitor/Modals/AddVisitor.tsx`,
`src/components/Visitor/Table.tsx`).

Timestamps (`Date` / `getTime()` values) are modelled as `Nat`.  The
IndexedDB object store `"visitors"` (keyPath `"id"`, autoIncrement) is
modelled as a list of records together with the auto-increment counter;
its operations `add`, `get`, `put`, `clear`, `getAll` are modelled
directly.  Asynchronous store writes may fail (the `try`/`catch` blocks
in `App.tsx` catch the rejection); a `Bool` parameter on each lifecycle
operation says whether the write succeeds, and `Outcome` records whether
the handler finished normally or caught an error.
-/

namespace VisitorApp

/-- The `Visitor` interface of `src/App.tsx` (lines 19-26): `id` is optional
(absent before first persistence), `checkOutTime` is nullable. -/
structure Visitor where
  id : Option Nat
  name : String
  purpose : String
  contact : String
  checkInTime : Nat
  checkOutTime : Option Nat
  deriving DecidableEq, Repr

/-- The IndexedDB object store `"visitors"`: stored records plus the
auto-increment key generator (IndexedDB generators start at 1). -/
structure Store where
  records : List Visitor
  nextId : Nat
  deriving DecidableEq, Repr

/-- `db.get("visitors", id)`: the record whose `id` key equals `id`. -/
def Store.get (s : Store) (id : Nat) : Option Visitor :=
  s.records.find? fun w => w.id == some id

/-- `db.add("visitors", v)` with autoIncrement: assigns the fresh key,
persists the record, returns the key. -/
def Store.add (s : Store) (v : Visitor) : Store × Nat :=
  (⟨s.records ++ [{ v with id := some s.nextId }], s.nextId + 1⟩, s.nextId)

/-- `db.put("visitors", u)`: replaces the record with the same key, or
inserts it if absent. -/
def Store.put (s : Store) (u : Visitor) : Store :=
  if s.records.any fun w => w.id == u.id then
    ⟨s.records.map fun w => if w.id == u.id then u else w, s.nextId⟩
  else
    ⟨s.records ++ [u], s.nextId⟩

/-- `db.clear("visitors")`: deletes every record; ids restart (the choice
documented in the spec for this source). -/
def Store.clear (_s : Store) : Store := ⟨[], 1⟩

/-- `db.getAll("visitors")`: every stored record. -/
def Store.getAll (s : Store) : List Visitor := s.records

/-- The application state that the lifecycle handlers touch: the durable
store and the in-memory `visitors` array (the `useState` in `App.tsx`). -/
structure AppState where
  store : Store
  visitors : List Visitor
  deriving DecidableEq, Repr

/-- Whether a handler's `try` block ran to completion (`ok`) or an
exception was caught and logged (`caughtError`). -/
inductive Outcome where
  | ok
  | caughtError
  deriving DecidableEq, Repr

/-- `resetDatabase` (`App.tsx` lines 61-70): clear the store, then empty
the in-memory set; on store failure the catch block leaves state alone. -/
def resetDatabase (st : AppState) (clearOk : Bool) : AppState × Outcome :=
  if clearOk then
    (⟨st.store.clear, []⟩, Outcome.ok)
  else
    (st, Outcome.caughtError)

/-- `addVisitor` (`App.tsx` lines 72-93): build the new record with
`checkInTime = now`, `checkOutTime = null`, `db.add` it, `db.get` it back,
and only if that returns a record append it to the in-memory set.  A
failing `db.add` rejects and is caught, leaving the state unchanged. -/
def addVisitor (st : AppState) (name purpose contact : String) (now : Nat)
    (addOk : Bool) : AppState × Outcome :=
  if addOk then
    let newVisitor : Visitor :=
      { id := none, name := name, purpose := purpose, contact := contact,
        checkInTime := now, checkOutTime := none }
    let added := st.store.add newVisitor
    match (added.1).get added.2 with
    | some addedVisitor => (⟨added.1, st.visitors ++ [addedVisitor]⟩, Outcome.ok)
    | none => (⟨added.1, st.visitors⟩, Outcome.ok)
  else
    (st, Outcome.caughtError)

/-- `checkOutVisitor` (`App.tsx` lines 95-113): fetch the record; if
present, set `checkOutTime = now` (unconditionally - there is no
already-checked-out guard), `db.put` it, and replace the in-memory entry
by id.  If the record is absent the `if (visitor)` test fails and the
handler completes silently.  A failing `db.put` rejects and is caught. -/
def checkOutVisitor (st : AppState) (id : Nat) (now : Nat) (putOk : Bool) :
    AppState × Outcome :=
  match st.store.get id with
  | some visitor =>
      let updatedVisitor := { visitor with checkOutTime := some now }
      if putOk then
        (⟨st.store.put updatedVisitor,
          st.visitors.map fun v => if v.id == some id then updatedVisitor else v⟩,
         Outcome.ok)
      else
        (st, Outcome.caughtError)
  | none => (st, Outcome.ok)

/-! ## Query layer (`App.tsx` lines 156-172) -/

/-- `String.prototype.toLowerCase` as used on the names and the query. -/
def jsToLower (s : String) : List Char := s.data.map Char.toLower

/-- `hay.includes(needle)` on lowered character lists: some tail of `hay`
starts with `needle`. -/
def containsSub (hay needle : List Char) : Bool :=
  hay.tails.any fun t => List.isPrefixOf needle t

/-- The filter predicate of `filteredVisitors`:
`visitor.name.toLowerCase().includes(searchQuery.toLowerCase())`. -/
def matchesQuery (searchQuery : String) (v : Visitor) : Bool :=
  containsSub (jsToLower v.name) (jsToLower searchQuery)

/-- The comparator passed to `.sort(...)`: `latest` compares
`b.checkInTime - a.checkInTime`, `oldest` compares
`a.checkInTime - b.checkInTime`, anything else returns 0. -/
def compareVisitors (sortOrder : String) (a b : Visitor) : Int :=
  if sortOrder = "latest" then
    (b.checkInTime : Int) - (a.checkInTime : Int)
  else if sortOrder = "oldest" then
    (a.checkInTime : Int) - (b.checkInTime : Int)
  else
    0

/-- `Array.prototype.sort(cmp)` for a consistent comparator: the stable
sort that keeps `a` before `b` whenever `cmp a b <= 0` (ECMAScript sorts
are required to be stable). -/
def jsSort (cmp : Visitor → Visitor → Int) (l : List Visitor) : List Visitor :=
  List.insertionSort (fun a b => cmp a b ≤ 0) l

/-- `filteredVisitors` (`App.tsx` lines 156-172): filter by the search
query, then sort with the order comparator. -/
def filteredVisitors (visitors : List Visitor) (searchQuery sortOrder : String) :
    List Visitor :=
  jsSort (compareVisitors sortOrder) (visitors.filter fun v => matchesQuery searchQuery v)

/-! ## JavaScript aliasing model for the view computation

`visitors.filter(p)` allocates a fresh array; `.sort(cmp)` then mutates
that fresh array in place.  To state that the stored `visitors` array is
not mutated, arrays are modelled as references into a heap of arrays. -/

/-- A heap of JavaScript arrays of visitors; a reference is an index. -/
abbrev Heap : Type := List (List Visitor)

/-- `arr.filter(p)`: reads the array at `ref`, allocates a fresh array
holding the filtered elements, returns the heap and the fresh reference. -/
def jsFilterAlloc (h : Heap) (ref : Nat) (p : Visitor → Bool) : Heap × Nat :=
  (h ++ [(h.getD ref []).filter p], h.length)

/-- `arr.sort(cmp)`: in-place, replaces the contents at `ref` with the
stably sorted contents. -/
def jsSortInPlace (h : Heap) (ref : Nat) (cmp : Visitor → Visitor → Int) : Heap :=
  h.set ref (jsSort cmp (h.getD ref []))

/-- The expression `visitors.filter(...).sort(...)` evaluated in the heap
model: filter allocates, sort mutates the fresh array, and the result is
the fresh reference. -/
def filteredVisitorsHeap (h : Heap) (visitorsRef : Nat)
    (searchQuery sortOrder : String) : Heap × Nat :=
  let fresh := jsFilterAlloc h visitorsRef fun v => matchesQuery searchQuery v
  (jsSortInPlace fresh.1 fresh.2 (compareVisitors sortOrder), fresh.2)

/-! ## Export adapter (`App.tsx` lines 115-153) -/

/-- The document produced by `exportAsPDF`: title, header row, body rows,
and the file name passed to `doc.save`. -/
structure PDFDoc where
  title : String
  header : List String
  rows : List (List String)
  fileName : String
  deriving DecidableEq, Repr

/-- One table row: name, purpose, contact, formatted check-in time, and
the formatted check-out time or `"N/A"` when null.  `fmt` models
`toLocaleString`. -/
def visitorRow (fmt : Nat → String) (v : Visitor) : List String :=
  [v.name, v.purpose, v.contact, fmt v.checkInTime,
   match v.checkOutTime with
   | some t => fmt t
   | none => "N/A"]

/-- `exportAsPDF`: iterates over the `visitors` state array (not over
`filteredVisitors`), one row per record, and saves `visitor-list.pdf`. -/
def exportAsPDF (fmt : Nat → String) (visitors : List Visitor) : PDFDoc :=
  { title := "Visitor List",
    header := ["Name", "Purpose", "Contact", "Check-In", "Check-Out"],
    rows := visitors.map fun v => visitorRow fmt v,
    fileName := "visitor-list.pdf" }

/-! ## Form validation (`AddVisitor.tsx`) -/

/-- The `visitorData` state of the modal form. -/
structure FormData where
  name : String
  purpose : String
  contact : String
  deriving DecidableEq, Repr

/-- The per-field `errors` state of the modal form. -/
structure FormErrors where
  name : String
  purpose : String
  contact : String
  deriving DecidableEq, Repr

/-- The initial (empty) error state. -/
def noErrors : FormErrors := { name := "", purpose := "", contact := "" }

/-- The enumerated purposes offered by the select
(`AddVisitor.tsx` line 12). -/
def purposes : List String := ["Meeting", "Delivery", "Interview", "Maintenance", "Other"]

/-- `String.prototype.trim()`: drop whitespace from both ends. -/
def jsTrim (s : String) : String :=
  ⟨((s.data.dropWhile Char.isWhitespace).reverse.dropWhile Char.isWhitespace).reverse⟩

/-- The regular expression test of `handleChange` for the contact field:
`/^\d*$/` accepts exactly the all-digit strings (including the empty one). -/
def isAllDigits (s : String) : Bool := s.data.all fun c => c.isDigit

/-- `handleChange` for the contact field (`AddVisitor.tsx` lines 42-52):
a value containing a non-digit is rejected (early return), otherwise the
field is updated. -/
def handleChangeContact (visitorData : FormData) (value : String) : FormData :=
  if isAllDigits value then { visitorData with contact := value } else visitorData

/-- `validateForm` (`AddVisitor.tsx` lines 54-75): `isValid` starts true;
an empty trimmed name, an empty purpose, or an empty trimmed contact each
set a field message and clear `isValid`. -/
def validateForm (visitorData : FormData) (errors : FormErrors) : Bool × FormErrors :=
  let step1 : Bool × FormErrors :=
    if jsTrim visitorData.name = "" then
      (false, { errors with name := "Name is required" })
    else
      (true, errors)
  let step2 : Bool × FormErrors :=
    if visitorData.purpose = "" then
      (false, { step1.2 with purpose := "Purpose is required" })
    else
      (step1.1, step1.2)
  if jsTrim visitorData.contact = "" then
    (false, { step2.2 with contact := "Contact information is required" })
  else
    (step2.1, step2.2)

/-- `handleSubmit` (`AddVisitor.tsx` lines 77-83) composed with the
`onSubmit = addVisitor` wiring in `App.tsx`: validate, and only when valid
call `addVisitor`.  Returns the new application state, the new error
state, and whether the submission went through to `addVisitor`. -/
def handleSubmit (st : AppState) (visitorData : FormData) (errors : FormErrors)
    (now : Nat) (addOk : Bool) : AppState × FormErrors × Bool :=
  let validated := validateForm visitorData errors
  if validated.1 then
    ((addVisitor st visitorData.name visitorData.purpose visitorData.contact now addOk).1,
     validated.2, true)
  else
    (st, validated.2, false)

/-- Stores are well formed when every stored id is below the generator
value; `db.add` with autoIncrement never collides under this invariant. -/
def WellFormed (s : Store) : Prop :=
  ∀ v ∈ s.records, ∀ n : Nat, v.id = some n → n < s.nextId

/-! ## Concrete sample data used by counterexamples and witnesses -/

/-- A concrete stand-in for `toLocaleString`. -/
def fmtNat : Nat → String := fun t => toString t

/-- A checked-in visitor named John. -/
def johnV : Visitor :=
  { id := some 1, name := "John", purpose := "Meeting", contact := "1234",
    checkInTime := 0, checkOutTime := none }

/-- A checked-in visitor named Mary. -/
def maryV : Visitor :=
  { id := some 2, name := "Mary", purpose := "Delivery", contact := "5678",
    checkInTime := 1, checkOutTime := none }

/-- A visitor already checked out at time 10. -/
def annOut : Visitor :=
  { id := some 1, name := "Ann", purpose := "Meeting", contact := "123",
    checkInTime := 0, checkOutTime := some 10 }

/-- The same visitor while still checked in. -/
def annIn : Visitor :=
  { id := some 1, name := "Ann", purpose := "Meeting", contact := "123",
    checkInTime := 0, checkOutTime := none }

/-- The freshly initialized application state. -/
def stEmpty : AppState := { store := { records := [], nextId := 1 }, visitors := [] }

/-- A state holding only the checked-out visitor `annOut`. -/
def stAnnOut : AppState := { store := { records := [annOut], nextId := 2 }, visitors := [annOut] }

/-- A state holding only the checked-in visitor `annIn`. -/
def stAnnIn : AppState := { store := { records := [annIn], nextId := 2 }, visitors := [annIn] }

/-! ## C6: reset clears the store and the in-memory set -/

/-- C6: `resetDatabase` clears every record from the durable store and
empties the in-memory set: after a successful reset, `getAll` (listAll)
returns the empty sequence and the in-memory view is empty. -/
theorem resetDatabase_clears (st : AppState) :
    (resetDatabase st true).1.store.getAll = [] ∧ (resetDatabase st true).1.visitors = [] :=
  ⟨rfl, rfl⟩

/-! ## C7: store-then-reflect ordering -/

/-- C7: the in-memory view is mutated only after the store write has
succeeded.  A failed `db.add` or `db.put` is caught and leaves the whole
state (store and in-memory set) exactly as it was, and whenever the
in-memory set changed the corresponding store write had succeeded. -/
theorem store_then_reflect (st : AppState) (name purpose contact : String)
    (id now : Nat) :
    (addVisitor st name purpose contact now false).1 = st
    ∧ (checkOutVisitor st id now false).1 = st
    ∧ (∀ ok : Bool, (addVisitor st name purpose contact now ok).1.visitors ≠ st.visitors →
        ok = true)
    ∧ (∀ ok : Bool, (checkOutVisitor st id now ok).1.visitors ≠ st.visitors →
        ok = true) := by
  refine ⟨by simp [addVisitor], ?_, ?_, ?_⟩
  · cases hget : st.store.get id <;> simp [checkOutVisitor, hget]
  · intro ok hne
    cases ok
    · exact absurd (by simp [addVisitor]) hne
    · rfl
  · intro ok hne
    cases ok
    · refine absurd ?_ hne
      cases hget : st.store.get id <;> simp [checkOutVisitor, hget]
    · rfl

/-- Witness for C7 at a concrete state: a failed add leaves the initial
state unchanged, and a successful add that did change the in-memory set
reports a successful write. -/
theorem store_then_reflect_witness :
    (addVisitor stEmpty "Ann" "Meeting" "123" 0 false).1 = stEmpty ∧ true = true :=
  ⟨(store_then_reflect stEmpty "Ann" "Meeting" "123" 1 0).1,
   (store_then_reflect stEmpty "Ann" "Meeting" "123" 1 0).2.2.1 true (by decide)⟩

/-! ## C2: what the export renders -/

/-- C2 counterexample: with records John and Mary and search query `"jo"`
the filtered/sorted view contains only John, yet the exported document
contains a row for every stored record - the export does not render the
currently filtered and sorted view. -/
theorem exportAsPDF_ignores_filter_cex :
    (filteredVisitors [johnV, maryV] "jo" "latest").length = 1
    ∧ (exportAsPDF fmtNat [johnV, maryV]).rows.length = 2
    ∧ (exportAsPDF fmtNat [johnV, maryV]).rows
        ≠ ((filteredVisitors [johnV, maryV] "jo" "latest").map fun v => visitorRow fmtNat v) := by
  refine ⟨by decide, by decide, ?_⟩
  intro h
  have hlen := congrArg List.length h
  simp only [List.length_map] at hlen
  exact absurd hlen (by decide)

/-- C2 (amended): the export renders the full in-memory record set in
stored order - not the filtered/sorted view - one row per record, with
the five columns Name, Purpose, Contact, Check-In, Check-Out, a null
`checkOutTime` rendered as `"N/A"`, titled `"Visitor List"` and saved as
`visitor-list.pdf`. -/
theorem exportAsPDF_renders_all (fmt : Nat → String) (visitors : List Visitor) :
    (exportAsPDF fmt visitors).rows = visitors.map (fun v => visitorRow fmt v)
    ∧ (exportAsPDF fmt visitors).header = ["Name", "Purpose", "Contact", "Check-In", "Check-Out"]
    ∧ (exportAsPDF fmt visitors).title = "Visitor List"
    ∧ (exportAsPDF fmt visitors).fileName = "visitor-list.pdf"
    ∧ ∀ v : Visitor, v.checkOutTime = none →
        visitorRow fmt v = [v.name, v.purpose, v.contact, fmt v.checkInTime, "N/A"] := by
  refine ⟨rfl, rfl, rfl, rfl, ?_⟩
  intro v hv
  simp [visitorRow, hv]

/-- Witness for C2 (amended): the row for the checked-in visitor John
renders its null checkout time as `"N/A"`. -/
theorem exportAsPDF_renders_all_witness :
    visitorRow fmtNat johnV = ["John", "Meeting", "1234", fmtNat 0, "N/A"] :=
  (exportAsPDF_renders_all fmtNat []).2.2.2.2 johnV rfl

/-! ## Store helper lemmas -/

/-- Replacing every record keyed `u.id` by `u` makes `u` the first record
found under that key, provided some record with that key was present. -/
theorem find?_map_put {u : Visitor} {id : Nat} (hid : u.id = some id) :
    ∀ L : List Visitor, (L.find? fun w => w.id == some id).isSome →
      ((L.map fun w => if w.id == u.id then u else w).find? fun w => w.id == some id) = some u := by
  intro L
  induction L with
  | nil => intro h; simp at h
  | cons w rest ih =>
      intro h
      by_cases hw : w.id = some id
      · have hwu : (w.id == u.id) = true := by simp [hw, hid]
        have hu : (u.id == some id) = true := by simp [hid]
        simp only [List.map_cons]
        rw [if_pos hwu, List.find?_cons]
        simp [hu]
      · have hwu : ¬ ((w.id == u.id) = true) := by simp [hid, hw]
        have hwb : (w.id == some id) = false := by simp [hw]
        rw [List.find?_cons] at h
        simp only [hwb] at h
        simp only [List.map_cons]
        rw [if_neg hwu, List.find?_cons]
        simp only [hwb]
        exact ih h

/-- If `get id` finds a record and `u` carries key `id`, then after
`put u` the store yields `u` at key `id`. -/
theorem get_put_of_get (s : Store) (id : Nat) (v u : Visitor)
    (hget : s.get id = some v) (hid : u.id = some id) :
    (s.put u).get id = some u := by
  have hgetf : List.find? (fun w => w.id == some id) s.records = some v := hget
  have hmem : v ∈ s.records := List.mem_of_find?_eq_some hgetf
  have hpv : (v.id == some id) = true := by simpa using List.find?_some hgetf
  have hany : (s.records.any fun w => w.id == u.id) = true := by
    rw [hid]
    exact List.any_eq_true.mpr ⟨v, hmem, hpv⟩
  have hsome : (s.records.find? fun w => w.id == some id).isSome := by
    rw [hgetf]; rfl
  unfold Store.put Store.get
  rw [if_pos hany]
  exact find?_map_put hid s.records hsome

/-- A record found at key `id` carries the id `id`. -/
theorem id_of_get (s : Store) (id : Nat) (v : Visitor) (hget : s.get id = some v) :
    v.id = some id := by
  have hgetf : List.find? (fun w => w.id == some id) s.records = some v := hget
  simpa using List.find?_some hgetf

/-! ## C1: checking out an already-checked-out record -/

/-- C1 counterexample: Ann is already checked out at time 10, yet
`checkOutVisitor` on her id completes normally (there is no
`AlreadyCheckedOut` failure) and overwrites the stored `checkOutTime`
with the new time 20 - the original timestamp is not preserved. -/
theorem checkOut_overwrites_cex :
    (checkOutVisitor stAnnOut 1 20 true).2 = Outcome.ok
    ∧ (checkOutVisitor stAnnOut 1 20 true).1.store.get 1
        = some { annOut with checkOutTime := some 20 }
    ∧ (checkOutVisitor stAnnOut 1 20 true).1.store.get 1 ≠ some annOut := by
  refine ⟨rfl, rfl, ?_⟩
  intro h
  simp [stAnnOut, annOut, checkOutVisitor, Store.get, Store.put] at h

/-- C1 (amended): for every record whose `checkOutTime` is non-null,
calling `checkOut` on its id does not fail - it completes normally (the
code has no `AlreadyCheckedOut` guard) and overwrites the stored
`checkOutTime` with the new current time, so the original timestamp is
lost. -/
theorem checkOut_overwrites (st : AppState) (id now t0 : Nat) (v : Visitor)
    (hget : st.store.get id = some v) (_hco : v.checkOutTime = some t0) :
    (checkOutVisitor st id now true).2 = Outcome.ok
    ∧ (checkOutVisitor st id now true).1.store.get id
        = some { v with checkOutTime := some now } := by
  have hid : v.id = some id := id_of_get st.store id v hget
  have h1 : checkOutVisitor st id now true
      = (⟨st.store.put { v with checkOutTime := some now },
          st.visitors.map fun w =>
            if w.id == some id then { v with checkOutTime := some now } else w⟩,
         Outcome.ok) := by
    unfold checkOutVisitor
    rw [hget]
    rfl
  rw [h1]
  exact ⟨rfl, get_put_of_get st.store id v _ hget hid⟩

/-- Witness for C1 (amended) at the concrete checked-out record `annOut`. -/
theorem checkOut_overwrites_witness :
    (checkOutVisitor stAnnOut 1 30 true).2 = Outcome.ok
    ∧ (checkOutVisitor stAnnOut 1 30 true).1.store.get 1
        = some { annOut with checkOutTime := some 30 } :=
  checkOut_overwrites stAnnOut 1 30 10 annOut rfl rfl

/-! ## C8: checkOut on a missing id, and on a present record -/

/-- C8 counterexample: with an empty store, `checkOutVisitor 1` does not
fail with `NotFound` - the handler completes normally (`Outcome.ok`, not
a caught failure) and no failure is surfaced; the state is unchanged. -/
theorem checkOut_missing_cex :
    checkOutVisitor stEmpty 1 5 true = (stEmpty, Outcome.ok)
    ∧ Outcome.ok ≠ Outcome.caughtError :=
  ⟨rfl, by decide⟩

/-- C8 (amended): for an id with no record in the store, `checkOut` is a
silent no-op that completes normally (no `NotFound` failure is surfaced);
for an existing record it sets `checkOutTime` to the current time, writes
the updated record to the store, and replaces the corresponding entry of
the in-memory set by id. -/
theorem checkOut_cases (st : AppState) (id now : Nat) :
    (st.store.get id = none → checkOutVisitor st id now true = (st, Outcome.ok))
    ∧ (∀ v : Visitor, st.store.get id = some v →
        (checkOutVisitor st id now true).2 = Outcome.ok
        ∧ (checkOutVisitor st id now true).1.store.get id
            = some { v with checkOutTime := some now }
        ∧ (checkOutVisitor st id now true).1.visitors
            = st.visitors.map fun w =>
                if w.id == some id then { v with checkOutTime := some now } else w) := by
  constructor
  · intro hget
    simp [checkOutVisitor, hget]
  · intro v hget
    have hid : v.id = some id := id_of_get st.store id v hget
    have h1 : checkOutVisitor st id now true
        = (⟨st.store.put { v with checkOutTime := some now },
            st.visitors.map fun w =>
              if w.id == some id then { v with checkOutTime := some now } else w⟩,
           Outcome.ok) := by
      unfold checkOutVisitor
      rw [hget]
      rfl
    rw [h1]
    exact ⟨rfl, get_put_of_get st.store id v _ hget hid, rfl⟩

/-- Witness for C8: the missing-id case at the empty state and the
present-record case at the checked-in record `annIn`. -/
theorem checkOut_cases_witness :
    checkOutVisitor stEmpty 2 5 true = (stEmpty, Outcome.ok)
    ∧ ((checkOutVisitor stAnnIn 1 5 true).2 = Outcome.ok
        ∧ (checkOutVisitor stAnnIn 1 5 true).1.store.get 1
            = some { annIn with checkOutTime := some 5 }
        ∧ (checkOutVisitor stAnnIn 1 5 true).1.visitors
            = stAnnIn.visitors.map fun w =>
                if w.id == some 1 then { annIn with checkOutTime := some 5 } else w) :=
  ⟨(checkOut_cases stEmpty 2 5).1 rfl, (checkOut_cases stAnnIn 1 5).2 annIn rfl⟩

/-! ## C5: what checkIn validation actually rejects -/

/-- C5 counterexample: `validateForm` passes a submission whose purpose is
not one of the enumerated values and whose contact contains a non-digit
character - no `ValidationError` is raised, and the submission creates a
record in the store. -/
theorem validateForm_gap_cex :
    (validateForm { name := "John", purpose := "Party", contact := "55a" } noErrors).1 = true
    ∧ "Party" ∉ purposes
    ∧ isAllDigits "55a" = false
    ∧ (handleSubmit stEmpty { name := "John", purpose := "Party", contact := "55a" }
        noErrors 5 true).1.store.records.length = 1 :=
  ⟨by decide, by decide, by decide, by decide⟩

/-- C5 (amended): `validateForm` fails - creating no record and
performing no store mutation - exactly when the trimmed name is empty,
the purpose is empty, or the trimmed contact is empty; purpose values
outside the enumerated set and non-digit contacts are not rejected by
`validateForm` (digit-only contact is enforced separately by the change
handler, which ignores any non-digit input value, and the purpose select
only offers enumerated options).  In particular a submission with empty
name, purpose `"Meeting"` and contact `"555"` fails with the name-field
error and leaves the state unchanged. -/
theorem validateForm_spec (st : AppState) (d : FormData) (errors : FormErrors)
    (now : Nat) (addOk : Bool) :
    ((validateForm d errors).1 = false ↔
        (jsTrim d.name = "" ∨ d.purpose = "" ∨ jsTrim d.contact = ""))
    ∧ ((validateForm d errors).1 = false →
        handleSubmit st d errors now addOk = (st, (validateForm d errors).2, false))
    ∧ (jsTrim d.name = "" → (validateForm d errors).2.name = "Name is required")
    ∧ (∀ value : String, isAllDigits value = false → handleChangeContact d value = d)
    ∧ handleSubmit st { name := "", purpose := "Meeting", contact := "555" } errors now addOk
        = (st, { errors with name := "Name is required" }, false) := by
  refine ⟨?_, ?_, ?_, ?_, ?_⟩
  · unfold validateForm
    split_ifs <;> simp_all
  · intro h
    simp [handleSubmit, h]
  · intro h
    unfold validateForm
    split_ifs <;> simp_all
  · intro value hv
    simp [handleChangeContact, hv]
  · have hval : validateForm { name := "", purpose := "Meeting", contact := "555" } errors
        = (false, { errors with name := "Name is required" }) := by
      unfold validateForm
      rw [if_neg (show ¬(jsTrim "555" = "") by decide),
          if_neg (show ¬(("Meeting" : String) = "") by decide),
          if_pos (show jsTrim "" = "" by decide)]
    simp [handleSubmit, hval]

/-- Witness for C5 (amended): the change handler rejects the non-digit
contact value `"12a"`, leaving the form data unchanged. -/
theorem validateForm_spec_witness :
    handleChangeContact { name := "John", purpose := "Meeting", contact := "12" } "12a"
      = { name := "John", purpose := "Meeting", contact := "12" } :=
  (validateForm_spec stEmpty { name := "John", purpose := "Meeting", contact := "12" }
    noErrors 0 true).2.2.2.1 "12a" (by decide)

/-! ## C3: case-insensitive substring filtering -/

/-- An empty needle is a substring of anything. -/
theorem containsSub_nil (hay : List Char) : containsSub hay [] = true := by
  cases hay with
  | nil => rfl
  | cons a t => rfl

/-- C3: the view contains exactly the records whose name contains the
query as a case-insensitive substring; the empty query matches every
record, and query `"jo"` matches a record named `"John"`. -/
theorem filteredVisitors_matches (vs : List Visitor) (q o : String) :
    (filteredVisitors vs q o).Perm (vs.filter fun v => matchesQuery q v)
    ∧ (∀ v : Visitor, v ∈ filteredVisitors vs q o ↔ v ∈ vs ∧ matchesQuery q v = true)
    ∧ (∀ v : Visitor, matchesQuery "" v = true)
    ∧ (∀ v : Visitor, v.name = "John" → matchesQuery "jo" v = true) := by
  refine ⟨List.perm_insertionSort _ _, ?_, ?_, ?_⟩
  · intro v
    unfold filteredVisitors jsSort
    rw [List.mem_insertionSort]
    simp [List.mem_filter]
  · intro v
    exact containsSub_nil (jsToLower v.name)
  · intro v h
    unfold matchesQuery
    rw [h]
    decide

/-- Witness for C3: the record named John is in the view for query
`"jo"`. -/
theorem filteredVisitors_matches_witness :
    johnV ∈ filteredVisitors [johnV] "jo" "latest" :=
  ((filteredVisitors_matches [johnV] "jo" "latest").2.1 johnV).mpr
    ⟨by simp, by decide⟩

/-! ## C9: creation and checkout timestamps -/

/-- Under the autoIncrement freshness invariant, `add` stores the record
under the fresh key and `get` of that key returns it. -/
theorem get_add_fresh (s : Store) (v : Visitor) (hwf : WellFormed s) :
    (s.add v).1.get (s.add v).2 = some { v with id := some s.nextId } := by
  have hnone : List.find? (fun w => w.id == some s.nextId) s.records = none := by
    rw [List.find?_eq_none]
    intro x hx hbeq
    have hxid : x.id = some s.nextId := by simpa using hbeq
    exact absurd (hwf x hx s.nextId hxid) (Nat.lt_irrefl _)
  show List.find? (fun w => w.id == some s.nextId)
      (s.records ++ [{ v with id := some s.nextId }]) = _
  rw [List.find?_append, hnone]
  simp [List.find?_cons]

/-- C9: every record created by `checkIn` starts with a null
`checkOutTime` and carries `checkInTime = now`; `checkOut` of a stored
checked-in record stores the same record with `checkOutTime` set to the
checkout instant, leaving `checkInTime` unchanged, and (the clock being
monotone, so the checkout instant is not before the check-in instant) the
stored record satisfies `checkOutTime >= checkInTime`. -/
theorem checkin_checkout_invariant :
    (∀ st : AppState, ∀ n p c : String, ∀ now : Nat, WellFormed st.store →
      (addVisitor st n p c now true).1.store.get st.store.nextId
          = some ⟨some st.store.nextId, n, p, c, now, none⟩
      ∧ (addVisitor st n p c now true).1.visitors
          = st.visitors ++ [⟨some st.store.nextId, n, p, c, now, none⟩])
    ∧ (∀ st : AppState, ∀ id now : Nat, ∀ v : Visitor,
        st.store.get id = some v → v.checkOutTime = none → v.checkInTime ≤ now →
        (checkOutVisitor st id now true).1.store.get id
            = some { v with checkOutTime := some now }
        ∧ ({ v with checkOutTime := some now } : Visitor).checkOutTime ≠ none
        ∧ ({ v with checkOutTime := some now } : Visitor).checkInTime = v.checkInTime
        ∧ v.checkInTime ≤ now) := by
  constructor
  · intro st n p c now hwf
    have hadd := get_add_fresh st.store ⟨none, n, p, c, now, none⟩ hwf
    have hadd2 : (st.store.add ⟨none, n, p, c, now, none⟩).1.get st.store.nextId
        = some ⟨some st.store.nextId, n, p, c, now, none⟩ := hadd
    constructor
    · simp [addVisitor, hadd, hadd2]
    · simp [addVisitor, hadd, hadd2]
  · intro st id now v hget hvco hle
    have hid : v.id = some id := id_of_get st.store id v hget
    have h1 : checkOutVisitor st id now true
        = (⟨st.store.put { v with checkOutTime := some now },
            st.visitors.map fun w =>
              if w.id == some id then { v with checkOutTime := some now } else w⟩,
           Outcome.ok) := by
      unfold checkOutVisitor
      rw [hget]
      rfl
    rw [h1]
    exact ⟨get_put_of_get st.store id v _ hget hid, by simp, rfl, hle⟩

/-- Witness for C9: checking in Jane at the empty state creates the
record with a null checkout time; checking out the checked-in record
`annIn` at time 7 stores it with checkout time 7 and unchanged check-in
time. -/
theorem checkin_checkout_invariant_witness :
    ((addVisitor stEmpty "Jane" "Interview" "5551234" 3 true).1.store.get 1
        = some ⟨some 1, "Jane", "Interview", "5551234", 3, none⟩
      ∧ (addVisitor stEmpty "Jane" "Interview" "5551234" 3 true).1.visitors
        = [] ++ [⟨some 1, "Jane", "Interview", "5551234", 3, none⟩])
    ∧ ((checkOutVisitor stAnnIn 1 7 true).1.store.get 1
        = some { annIn with checkOutTime := some 7 }
      ∧ ({ annIn with checkOutTime := some 7 } : Visitor).checkOutTime ≠ none
      ∧ ({ annIn with checkOutTime := some 7 } : Visitor).checkInTime = annIn.checkInTime
      ∧ annIn.checkInTime ≤ 7) :=
  ⟨checkin_checkout_invariant.1 stEmpty "Jane" "Interview" "5551234" 3
      (by intro v hv; simp [stEmpty] at hv),
   checkin_checkout_invariant.2 stAnnIn 1 7 annIn rfl rfl (by decide)⟩

/-! ## C10: computing the view does not mutate the stored array -/

/-- C10: in the aliasing model, evaluating
`visitors.filter(...).sort(...)` leaves the array at the original
`visitors` reference untouched (the in-place sort runs on the fresh array
the filter allocated), and the fresh array holds exactly the
filtered/sorted view. -/
theorem filteredVisitorsHeap_frame (h : Heap) (ref : Nat) (q o : String)
    (href : ref < h.length) :
    ((filteredVisitorsHeap h ref q o).1)[ref]? = h[ref]?
    ∧ ((filteredVisitorsHeap h ref q o).1)[(filteredVisitorsHeap h ref q o).2]?
        = some (filteredVisitors (h.getD ref []) q o) := by
  have hne : h.length ≠ ref := ne_of_gt href
  have hf : (h ++ [(h.getD ref []).filter fun v => matchesQuery q v]).getD h.length []
      = (h.getD ref []).filter fun v => matchesQuery q v := by
    rw [List.getD_eq_getElem?_getD, List.getElem?_concat_length]
    rfl
  constructor
  · simp only [filteredVisitorsHeap, jsFilterAlloc, jsSortInPlace]
    rw [List.getElem?_set_ne hne]
    exact List.getElem?_append_left href
  · simp only [filteredVisitorsHeap, jsFilterAlloc, jsSortInPlace]
    rw [hf, List.getElem?_set_self (by simp)]
    rfl

/-- Witness for C10 at a one-array heap holding John and Mary. -/
theorem filteredVisitorsHeap_frame_witness :
    ((filteredVisitorsHeap [[johnV, maryV]] 0 "jo" "latest").1)[0]? = [[johnV, maryV]][0]?
    ∧ ((filteredVisitorsHeap [[johnV, maryV]] 0 "jo" "latest").1)[
        (filteredVisitorsHeap [[johnV, maryV]] 0 "jo" "latest").2]?
        = some (filteredVisitors ([[johnV, maryV]].getD 0 []) "jo" "latest") :=
  filteredVisitorsHeap_frame [[johnV, maryV]] 0 "jo" "latest" (by decide)

/-! ## C4: sorting by check-in time -/

/-- The `latest` comparator accepts `a` before `b` exactly when
`b.checkInTime <= a.checkInTime`. -/
theorem latest_le_iff (a b : Visitor) :
    compareVisitors "latest" a b ≤ 0 ↔ b.checkInTime ≤ a.checkInTime := by
  simp [compareVisitors]

/-- The `oldest` comparator accepts `a` before `b` exactly when
`a.checkInTime <= b.checkInTime`. -/
theorem oldest_le_iff (a b : Visitor) :
    compareVisitors "oldest" a b ≤ 0 ↔ a.checkInTime ≤ b.checkInTime := by
  simp [compareVisitors]

/-- The `latest` view is sorted by check-in time descending. -/
theorem sorted_jsSort_latest (l : List Visitor) :
    (jsSort (compareVisitors "latest") l).Sorted fun a b => b.checkInTime ≤ a.checkInTime := by
  haveI : IsTotal Visitor fun a b => compareVisitors "latest" a b ≤ 0 :=
    ⟨fun a b => by rw [latest_le_iff, latest_le_iff]; omega⟩
  haveI : IsTrans Visitor fun a b => compareVisitors "latest" a b ≤ 0 :=
    ⟨fun a b c hab hbc => by
      rw [latest_le_iff] at hab hbc ⊢
      omega⟩
  have hs := List.sorted_insertionSort (fun a b => compareVisitors "latest" a b ≤ 0) l
  exact List.Pairwise.imp (fun hab => (latest_le_iff _ _).1 hab) hs

/-- The `oldest` view is sorted by check-in time ascending. -/
theorem sorted_jsSort_oldest (l : List Visitor) :
    (jsSort (compareVisitors "oldest") l).Sorted fun a b => a.checkInTime ≤ b.checkInTime := by
  haveI : IsTotal Visitor fun a b => compareVisitors "oldest" a b ≤ 0 :=
    ⟨fun a b => by rw [oldest_le_iff, oldest_le_iff]; omega⟩
  haveI : IsTrans Visitor fun a b => compareVisitors "oldest" a b ≤ 0 :=
    ⟨fun a b c hab hbc => by
      rw [oldest_le_iff] at hab hbc ⊢
      omega⟩
  have hs := List.sorted_insertionSort (fun a b => compareVisitors "oldest" a b ≤ 0) l
  exact List.Pairwise.imp (fun hab => (oldest_le_iff _ _).1 hab) hs

/-- Inserting an element that is related to every element sharing its
`p`-class puts it in front of that class and leaves the rest of the
filtered sequence unchanged. -/
theorem filter_orderedInsert_stable {r : Visitor → Visitor → Prop} [DecidableRel r]
    (p : Visitor → Bool) (a : Visitor)
    (ha : ∀ b : Visitor, p a = true → p b = true → r a b) :
    ∀ L : List Visitor, (List.orderedInsert r a L).filter p
      = if p a = true then a :: L.filter p else L.filter p := by
  intro L
  induction L with
  | nil =>
      by_cases hpa : p a = true <;>
        simp [List.orderedInsert, List.filter_cons, hpa]
  | cons b L ih =>
      simp only [List.orderedInsert]
      by_cases hr : r a b
      · rw [if_pos hr]
        by_cases hpa : p a = true <;> simp [List.filter_cons, hpa]
      · rw [if_neg hr]
        by_cases hpa : p a = true
        · have hpb : p b = false := by
            cases hpbt : p b
            · rfl
            · exact absurd (ha b hpa hpbt) hr
          simp [List.filter_cons, hpb, ih, hpa]
        · have hpa2 : p a = false := by
            cases hpat : p a
            · rfl
            · exact absurd hpat hpa
          simp [List.filter_cons, ih, hpa2]

/-- Stability of the insertion sort: the subsequence of elements in one
`p`-class is unchanged, provided the relation holds within the class. -/
theorem filter_insertionSort_stable {r : Visitor → Visitor → Prop} [DecidableRel r]
    (p : Visitor → Bool)
    (h : ∀ a b : Visitor, p a = true → p b = true → r a b) :
    ∀ L : List Visitor, (List.insertionSort r L).filter p = L.filter p := by
  intro L
  induction L with
  | nil => rfl
  | cons a L ih =>
      simp only [List.insertionSort]
      rw [filter_orderedInsert_stable p a (fun b => h a b)]
      by_cases hpa : p a = true <;> simp [List.filter_cons, hpa, ih]

/-- Elements tied at check-in time `k` keep their relative order through
the `latest` sort. -/
theorem jsSort_stable_latest (l : List Visitor) (k : Nat) :
    (jsSort (compareVisitors "latest") l).filter (fun v => v.checkInTime == k)
      = l.filter (fun v => v.checkInTime == k) := by
  apply filter_insertionSort_stable
  intro a b hpa hpb
  have ha2 : a.checkInTime = k := by simpa using hpa
  have hb2 : b.checkInTime = k := by simpa using hpb
  exact (latest_le_iff a b).2 (by rw [ha2, hb2])

/-- Elements tied at check-in time `k` keep their relative order through
the `oldest` sort. -/
theorem jsSort_stable_oldest (l : List Visitor) (k : Nat) :
    (jsSort (compareVisitors "oldest") l).filter (fun v => v.checkInTime == k)
      = l.filter (fun v => v.checkInTime == k) := by
  apply filter_insertionSort_stable
  intro a b hpa hpb
  have ha2 : a.checkInTime = k := by simpa using hpa
  have hb2 : b.checkInTime = k := by simpa using hpb
  exact (oldest_le_iff a b).2 (by rw [ha2, hb2])

/-- With pairwise-distinct check-in times, the `oldest` view is the exact
reverse of the `latest` view. -/
theorem oldest_reverse_of_distinct (vs : List Visitor) (q : String)
    (hd : vs.Pairwise fun a b => a.checkInTime ≠ b.checkInTime) :
    filteredVisitors vs q "oldest" = (filteredVisitors vs q "latest").reverse := by
  have hdP : (vs.filter fun v => matchesQuery q v).Pairwise
      fun a b => a.checkInTime ≠ b.checkInTime :=
    List.Pairwise.sublist (List.filter_sublist vs) hd
  have hlat_perm : (filteredVisitors vs q "latest").Perm
      (vs.filter fun v => matchesQuery q v) := List.perm_insertionSort _ _
  have hold_perm : (filteredVisitors vs q "oldest").Perm
      (vs.filter fun v => matchesQuery q v) := List.perm_insertionSort _ _
  have hlat_sorted := sorted_jsSort_latest (vs.filter fun v => matchesQuery q v)
  have hold_sorted := sorted_jsSort_oldest (vs.filter fun v => matchesQuery q v)
  have hlat_ne : (filteredVisitors vs q "latest").Pairwise
      (fun a b => a.checkInTime ≠ b.checkInTime) :=
    (List.Perm.pairwise_iff (fun hxy => Ne.symm hxy) hlat_perm).mpr hdP
  have hold_ne : (filteredVisitors vs q "oldest").Pairwise
      (fun a b => a.checkInTime ≠ b.checkInTime) :=
    (List.Perm.pairwise_iff (fun hxy => Ne.symm hxy) hold_perm).mpr hdP
  have hlat_strict : (filteredVisitors vs q "latest").Pairwise
      (fun a b => b.checkInTime < a.checkInTime) :=
    (List.Pairwise.and hlat_sorted hlat_ne).imp
      (fun hab => lt_of_le_of_ne hab.1 (Ne.symm hab.2))
  have hold_strict : (filteredVisitors vs q "oldest").Pairwise
      (fun a b => a.checkInTime < b.checkInTime) :=
    (List.Pairwise.and hold_sorted hold_ne).imp
      (fun hab => lt_of_le_of_ne hab.1 hab.2)
  have hrev_strict : ((filteredVisitors vs q "latest").reverse).Pairwise
      (fun a b => a.checkInTime < b.checkInTime) := by
    rw [List.pairwise_reverse]
    exact hlat_strict
  have hperm2 : (filteredVisitors vs q "oldest").Perm
      ((filteredVisitors vs q "latest").reverse) :=
    hold_perm.trans (hlat_perm.symm.trans (List.reverse_perm _).symm)
  haveI : IsAntisymm Visitor fun a b => a.checkInTime < b.checkInTime :=
    ⟨fun a b h1 h2 => absurd (Nat.lt_trans h1 h2) (Nat.lt_irrefl _)⟩
  exact List.eq_of_perm_of_sorted hperm2 hold_strict hrev_strict

/-- C4: `latest` yields the view ordered by check-in time descending and
`oldest` ascending; ties (equal check-in times) retain their relative
input order (the ECMAScript sort is stable); and on a record set with
pairwise-distinct check-in times the `oldest` ordering is the exact
reverse of the `latest` ordering. -/
theorem filteredVisitors_sort_spec (vs : List Visitor) (q : String) :
    ((filteredVisitors vs q "latest").Sorted fun a b => b.checkInTime ≤ a.checkInTime)
    ∧ ((filteredVisitors vs q "oldest").Sorted fun a b => a.checkInTime ≤ b.checkInTime)
    ∧ (∀ k : Nat, (filteredVisitors vs q "latest").filter (fun v => v.checkInTime == k)
        = (vs.filter fun v => matchesQuery q v).filter (fun v => v.checkInTime == k))
    ∧ (∀ k : Nat, (filteredVisitors vs q "oldest").filter (fun v => v.checkInTime == k)
        = (vs.filter fun v => matchesQuery q v).filter (fun v => v.checkInTime == k))
    ∧ (vs.Pairwise (fun a b => a.checkInTime ≠ b.checkInTime) →
        filteredVisitors vs q "oldest" = (filteredVisitors vs q "latest").reverse) :=
  ⟨sorted_jsSort_latest _, sorted_jsSort_oldest _,
   fun k => jsSort_stable_latest _ k, fun k => jsSort_stable_oldest _ k,
   oldest_reverse_of_distinct vs q⟩

/-- Witness for C4: on the concrete records John (check-in 0) and Mary
(check-in 1) with the empty query, the oldest view is the reverse of the
latest view. -/
theorem filteredVisitors_sort_spec_witness :
    filteredVisitors [johnV, maryV] "" "oldest"
      = (filteredVisitors [johnV, maryV] "" "latest").reverse :=
  (filteredVisitors_sort_spec [johnV, maryV] "").2.2.2.2 (by decide)

end VisitorApp
